import Mathlib

/-!
Verification development for the scan-orchestration / finding-normalization
server (`server/app.py`).

set_option autoImplicit false

The Python functions are shallowly embedded as Lean definitions:
* `risk_to_score`, `CUSTOM_SUGGESTIONS`, `enrich_suggestions`,
  `simplify_alerts` embed the utility layer;
* `scan`, `chat`, `ai_analyze` embed the route handlers, with the ZAP
  scan engine, the URL validator library and the Gemini generation call
  abstracted as explicit parameters (they are external collaborators);
  fallible external calls are modelled with `Except String`.
Python dicts keyed by finding name are embedded as insertion-ordered
association lists (`List (String × AlertGroup)`), which is exactly the
semantics of `collections.defaultdict` over Python 3.7+ ordered dicts.
Wall-clock concerns (polling intervals, timeouts, timestamps) are not
part of the value-level model: the polling loops only determine *when*
results are fetched, not *what* is computed from them, so each engine
phase is modelled by its final outcome.
-/

/-- Python truthiness for an optional string: `None` and `""` are falsy
(embeds the behaviour of `a.get(k) or ...` chains). -/
def tv (s : Option String) : Option String :=
  match s with
  | none => none
  | some s => if s = "" then none else some s

/-- Python `a or b` on optional strings, after truthiness coercion of `a`. -/
def pyOr (a b : Option String) : Option String :=
  match a with
  | some s => some s
  | none => b

/-- A raw ZAP alert record.  The Python side is a loosely-typed dict; every
key that `simplify_alerts` / the `scan` route ever reads is modelled as an
explicit optional field. -/
structure RawFinding where
  alert : Option String := none
  name : Option String := none
  risk : Option String := none
  riskdesc : Option String := none
  severity : Option String := none
  description : Option String := none
  desc : Option String := none
  evidence : Option String := none
  solution : Option String := none
  solutions : Option String := none
  reference : Option String := none
  references : Option String := none
  url : Option String := none
  uri : Option String := none
  param : Option String := none
  deriving Repr, DecidableEq

/-- `a.get('alert') or a.get('name') or "Unknown"` in `simplify_alerts`. -/
def resolveName (a : RawFinding) : String :=
  (pyOr (tv a.alert) (tv a.name)).getD "Unknown"

/-- `a.get('risk') or a.get('riskdesc') or a.get('severity') or "Informational"`. -/
def resolveRisk (a : RawFinding) : String :=
  (pyOr (tv a.risk) (pyOr (tv a.riskdesc) (tv a.severity))).getD "Informational"

/-- `a.get('description') or a.get('desc') or a.get('evidence') or a.get('url') or ""`,
kept as an option so that the subsequent `if desc:` guard is the `some` case. -/
def resolveDescOpt (a : RawFinding) : Option String :=
  pyOr (tv a.description) (pyOr (tv a.desc) (pyOr (tv a.evidence) (tv a.url)))

/-- `a.get('solution') or a.get('solutions') or ""`, as an option (see above). -/
def resolveSolOpt (a : RawFinding) : Option String :=
  pyOr (tv a.solution) (tv a.solutions)

/-- `a.get('reference') or a.get('references') or ""`, as an option. -/
def resolveRefOpt (a : RawFinding) : Option String :=
  pyOr (tv a.reference) (tv a.references)

/-- `a.get('url') or a.get('uri')` with the `if url:` guard folded in. -/
def resolveUrl (a : RawFinding) : Option String :=
  pyOr (tv a.url) (tv a.uri)

/-- `a.get('param')` with the `if param:` guard folded in. -/
def resolveParam (a : RawFinding) : Option String :=
  tv a.param

/-- The per-name accumulator of `simplify_alerts`
(`defaultdict(lambda: {"urls": [], "params": [], "risk": None, ...})`). -/
structure AlertGroup where
  urls : List String := []
  params : List String := []
  risk : Option String := none
  description : String := ""
  solution : String := ""
  reference : String := ""
  deriving Repr, DecidableEq

/-- The default value installed by the `defaultdict` on first access. -/
def emptyGroup : AlertGroup := {}

/-- The per-record mutation of `grouped[name]` inside the loop of
`simplify_alerts`: risk is overwritten unconditionally, description /
solution / reference only when the resolved value is truthy, and
url / param are appended when truthy. -/
def updateGroup (g : AlertGroup) (a : RawFinding) : AlertGroup :=
  { g with
    risk := some (resolveRisk a)
    description := (resolveDescOpt a).getD g.description
    solution := (resolveSolOpt a).getD g.solution
    reference := (resolveRefOpt a).getD g.reference
    urls := g.urls ++ (resolveUrl a).toList
    params := g.params ++ (resolveParam a).toList }

/-- One step of the grouping loop: `grouped[name]` either updates the
existing entry in place or (defaultdict) appends a fresh entry at the end
of the insertion-ordered dict. -/
def insertAlert (st : List (String × AlertGroup)) (a : RawFinding) : List (String × AlertGroup) :=
  let n := resolveName a
  if st.any (fun p => p.1 == n) then
    st.map (fun p => if p.1 == n then (p.1, updateGroup p.2 a) else p)
  else
    st ++ [(n, updateGroup emptyGroup a)]

/-- `list(dict.fromkeys(l))`: first-occurrence deduplication preserving
order, via an accumulator of already-seen keys. -/
def dedupGo {α : Type} [DecidableEq α] (seen : List α) : List α → List α
  | [] => []
  | x :: xs => if x ∈ seen then dedupGo seen xs else x :: dedupGo (x :: seen) xs

/-- `list(dict.fromkeys(l))` with no keys seen yet. -/
def dedup {α : Type} [DecidableEq α] (l : List α) : List α :=
  dedupGo [] l

/-- The normalized finding emitted by `simplify_alerts`. -/
structure SimplifiedAlert where
  name : String
  risk : Option String
  urls : List String
  params : List String
  description : String
  solution : String
  reference : String
  deriving Repr, DecidableEq

/-- The final `simplified.append({...})` projection of a grouped entry. -/
def emitGroup (p : String × AlertGroup) : SimplifiedAlert :=
  { name := p.1
    risk := p.2.risk
    urls := dedup p.2.urls
    params := dedup p.2.params
    description := p.2.description
    solution := p.2.solution
    reference := p.2.reference }

/-- `simplify_alerts`: fold all raw records into the insertion-ordered
name map, then emit one simplified record per group. -/
def simplify_alerts (alerts : List RawFinding) : List SimplifiedAlert :=
  (alerts.foldl insertAlert []).map emitGroup

/-- `risk_to_score`: `{"High": 9, "Medium": 6, "Low": 3, "Informational": 1,
"Critical": 10}.get(risk, 0)`. -/
def risk_to_score (risk : String) : Nat :=
  if risk = "High" then 9
  else if risk = "Medium" then 6
  else if risk = "Low" then 3
  else if risk = "Informational" then 1
  else if risk = "Critical" then 10
  else 0

/-- The `CUSTOM_SUGGESTIONS` table, insertion order of the Python dict
literal preserved. -/
def CUSTOM_SUGGESTIONS : List (String × String) :=
  [("Cross Site Scripting", "Validate and sanitize inputs. Use CSP headers and avoid inline JS."),
   ("SQL Injection", "Use parameterized queries/ORM. Never concatenate user input into SQL."),
   ("Insecure Cookies", "Enable HttpOnly, Secure, SameSite attributes on cookies."),
   ("CSP", "Add strong Content-Security-Policy headers to block inline scripts."),
   ("CORS", "Restrict allowed origins to trusted domains and avoid '*'.")]

/-- `nd` occurs at the head of `hs` (character-list version of Python's
startswith, used to build substring containment). -/
def headMatch : List Char → List Char → Bool
  | [], _ => true
  | _ :: _, [] => false
  | a :: as, b :: bs => a == b && headMatch as bs

/-- `nd in hs` for character lists: contiguous substring containment,
the semantics of Python's `in` operator on strings. -/
def hasSubChars (nd : List Char) : List Char → Bool
  | [] => nd.isEmpty
  | h :: t => headMatch nd (h :: t) || hasSubChars nd t

/-- `key.lower() in (name or "").lower()` from `enrich_suggestions`
(lower-casing applied character-wise over the character lists, which
agrees with `str.lower` on these ASCII tables). -/
def containsLower (needle hay : String) : Bool :=
  hasSubChars (needle.toList.map Char.toLower) (hay.toList.map Char.toLower)

/-- A finding after the `scan` route has attached `score` (and possibly
`extra_suggestion`) to the simplified record. -/
structure Finding where
  name : String
  risk : Option String
  urls : List String
  params : List String
  description : String
  solution : String
  reference : String
  score : Nat
  extra_suggestion : Option String := none
  deriving Repr, DecidableEq

/-- `a['score'] = risk_to_score(a.get('risk', ''))` on a simplified record. -/
def attachScore (a : SimplifiedAlert) : Finding :=
  { name := a.name
    risk := a.risk
    urls := a.urls
    params := a.params
    description := a.description
    solution := a.solution
    reference := a.reference
    score := risk_to_score (a.risk.getD "")
    extra_suggestion := none }

/-- `enrich_suggestions`: scan the suggestion table in order, attach the
first match's text, stop at the first hit (`break`). -/
def enrich_suggestions (f : Finding) : Finding :=
  match CUSTOM_SUGGESTIONS.find? (fun kv => containsLower kv.1 f.name) with
  | some kv => { f with extra_suggestion := some kv.2 }
  | none => f

/-- The `final` list built by the `scan` route: simplify, attach score,
enrich, in input order. -/
def processAlerts (alerts : List RawFinding) : List Finding :=
  (simplify_alerts alerts).map (fun a => enrich_suggestions (attachScore a))

/-- `v['score'] >= 9`, the Critical bucket condition of the `scan` route. -/
def isCritical (v : Finding) : Bool := 9 ≤ v.score

/-- `6 <= v['score'] < 9`, the High bucket condition. -/
def isHigh (v : Finding) : Bool := 6 ≤ v.score && v.score < 9

/-- `3 <= v['score'] < 6`, the Medium bucket condition. -/
def isMedium (v : Finding) : Bool := 3 ≤ v.score && v.score < 6

/-- `v['score'] < 3`, the Low bucket condition. -/
def isLow (v : Finding) : Bool := v.score < 3

/-- The `grouped` dict of the `scan` route (insertion order preserved). -/
def groupedBuckets (final : List Finding) : List (String × List Finding) :=
  [("Critical", final.filter isCritical),
   ("High", final.filter isHigh),
   ("Medium", final.filter isMedium),
   ("Low", final.filter isLow)]

/-- `{k: len(v) for k, v in grouped.items()}`. -/
def summaryOf (final : List Finding) : List (String × Nat) :=
  (groupedBuckets final).map (fun kv => (kv.1, kv.2.length))

/-- The fixed synthetic record appended by the `scan` route at level 3. -/
def syntheticWAF (target : String) : RawFinding :=
  { alert := some "Missing WAF/Firewall headers"
    risk := some "Medium"
    url := some target
    param := none
    evidence := none
    description := some "Response lacks typical WAF headers indicating a web application firewall."
    solution := some "Deploy a WAF or reverse proxy and add relevant headers."
    reference := some "https://owasp.org/www-project-top-ten/" }

/-- The prompt `ai_analyze` builds from the top-10 findings. -/
def ai_prompt (findings : List Finding) (target : String) (level : Int) : String :=
  let findings_text := String.intercalate "\n"
    ((findings.take 10).map (fun f =>
      "- " ++ f.name ++ " (" ++ f.risk.getD "" ++ ") : " ++ f.description))
  "\nYou are a concise security analyst. A web scan was performed on " ++ target ++
  " with level " ++ toString level ++ ".\nFindings:\n" ++ findings_text ++
  "\n\nPlease:\n1) Prioritize the most severe 3 issues and explain their real-world impact in simple language.\n" ++
  "2) Give short, practical remediation steps (show code snippets only when relevant).\n" ++
  "3) Suggest which issues an attacker would try first.\nKeep the answer short and actionable.\n"

/-- `ai_analyze`: call the black-box generation service on the prompt;
the surrounding `try/except` turns any failure into the bracketed
marker string and never raises. -/
def ai_analyze (gen : String → Except String String) (findings : List Finding)
    (target : String) (level : Int) : String :=
  match gen (ai_prompt findings target level) with
  | Except.ok t => t
  | Except.error e => "[AI summary unavailable: " ++ e ++ "]"

/-- The black-box external collaborators of the `scan` and `chat` routes.
Each fallible call is an `Except String` outcome: `spider` is the result
of `spider_and_get_alerts` (spider job plus `zap.core.alerts`),
`ascanStart` is `zap.ascan.scan`, `ascanPoll` is the status-polling loop
(whose status-read errors propagate), `ascanRefresh` is the
`zap.core.alerts` refetch, and `generate` is the Gemini call. -/
structure Engine where
  spider : Except String (List RawFinding)
  ascanStart : Except String String
  ascanPoll : Except String Unit
  ascanRefresh : Except String (List RawFinding)
  generate : String → Except String String

/-- The `level >= 2` branch of the `scan` route: start the active scan,
run the polling loop (status-read errors propagate here), refetch the
alerts (replacing the spider ones), and record the job id. -/
def ascanPhase (eng : Engine) : Except String (String × List RawFinding) :=
  match eng.ascanStart with
  | Except.error e => Except.error e
  | Except.ok jid =>
    match eng.ascanPoll with
    | Except.error e => Except.error e
    | Except.ok _ =>
      match eng.ascanRefresh with
      | Except.error e => Except.error e
      | Except.ok alerts2 => Except.ok (jid, alerts2)

/-- Raw-finding collection of the `scan` route after the spider phase:
the `level >= 2` active-scan branch, then the `level == 3` synthetic
append. -/
def collectAfterSpider (eng : Engine) (target : String) (level : Int)
    (alerts : List RawFinding) : Except String (Option String × List RawFinding) :=
  match (if 2 ≤ level then (ascanPhase eng).map (fun p => (some p.1, p.2))
         else Except.ok (none, alerts)) with
  | Except.error e => Except.error e
  | Except.ok (aid, alerts) =>
      Except.ok (aid, if level = 3 then alerts ++ [syntheticWAF target] else alerts)

/-- Raw-finding collection of the `scan` route: spider alerts, then the
active-scan and synthetic-injection branches. -/
def collectRaw (eng : Engine) (target : String) (level : Int) :
    Except String (Option String × List RawFinding) :=
  match eng.spider with
  | Except.error e => Except.error e
  | Except.ok alerts => collectAfterSpider eng target level alerts

/-- A whitespace character, per Python's `str.strip` default set. -/
def isSpaceChar (c : Char) : Bool :=
  c = ' ' || c = '\t' || c = '\n' || c = '\x0b' || c = '\x0c' || c = '\r'

/-- Python's `str.strip()`: drop leading and trailing whitespace. -/
def pyStrip (s : String) : String :=
  String.mk (((s.toList.dropWhile isSpaceChar).reverse.dropWhile isSpaceChar).reverse)

/-- The report assembled by the `scan` route.  The wall-clock `timestamp`
field is outside the value-level model and omitted. -/
structure Report where
  target : String
  level : Int
  summary : List (String × Nat)
  vulnerabilities : List Finding
  ai_summary : String
  ascan_id : Option String
  deriving Repr, DecidableEq

/-- The HTTP outcome of a route: 200 with a payload, 400, or 500. -/
inductive HttpResult (α : Type) where
  | ok (v : α)
  | clientErr (msg : String)
  | serverErr (msg : String)
  deriving Repr, DecidableEq

/-- Whether the route returned 200. -/
def HttpResult.isOk {α : Type} : HttpResult α → Bool
  | HttpResult.ok _ => true
  | _ => false

/-- The body of the `try:` block of the `scan` route, from alert
collection to report assembly. -/
def scanReport (eng : Engine) (target : String) (level : Int) : Except String Report :=
  match collectRaw eng target level with
  | Except.error e => Except.error e
  | Except.ok (aid, alerts) =>
    let final := processAlerts alerts
    Except.ok
      { target := target
        level := level
        summary := summaryOf final
        vulnerabilities := final
        ai_summary := ai_analyze eng.generate final target level
        ascan_id := aid }

/-- The `scan` route: validate the URL (400 on failure, store untouched),
run the scan body (500 with the error text on failure, store untouched),
and on success replace the single-slot `last_scan` store wholesale.
`validator` abstracts the external `validators.url` library. -/
def scan (validator : String → Bool) (eng : Engine) (store : Option Report)
    (url : String) (level : Int) : HttpResult Report × Option Report :=
  let target := pyStrip url
  if target = "" || !(validator target) then
    (HttpResult.clientErr "Invalid or missing URL. Please include http:// or https://", store)
  else
    match scanReport eng target level with
    | Except.ok report => (HttpResult.ok report, some report)
    | Except.error e => (HttpResult.serverErr e, store)

/-- The context block the `chat` route appends when `include_scan` is set
and a last scan exists (`summary` rendered via its `Repr`, standing in for
Python's dict `str()`). -/
def chatBrief (r : Report) : String :=
  "\n\nLatest scan target: " ++ r.target ++ "\nSummary counts: " ++
  toString (repr r.summary) ++ "\nTop findings:\n" ++
  String.join ((r.vulnerabilities.take 8).map (fun v =>
    "- " ++ v.name ++ " (" ++ v.risk.getD "" ++ "): " ++ v.description ++ "\n"))

/-- The prompt the `chat` route sends to the generation service. -/
def chat_prompt (store : Option Report) (message : String) (include_scan : Bool) : String :=
  let prompt := "You are a helpful security assistant. Answer concisely and clearly." ++
    "\nUser: " ++ message
  match store with
  | some r => if include_scan then prompt ++ chatBrief r else prompt
  | none => prompt

/-- The `chat` route: 400 on an empty (stripped) message; otherwise call
the generation service and return its text, or — unlike `ai_analyze` — a
500 error reply `"AI Chat unavailable: ..."` when the call raises. -/
def chat (gen : String → Except String String) (store : Option Report)
    (message : String) (include_scan : Bool) : HttpResult String :=
  let msg := pyStrip message
  if msg = "" then HttpResult.clientErr "Message cannot be empty"
  else
    match gen (chat_prompt store msg include_scan) with
    | Except.ok t => HttpResult.ok t
    | Except.error e => HttpResult.serverErr ("AI Chat unavailable: " ++ e)

/-- One step of a "last truthy value wins" accumulation. -/
def stepLast (acc o : Option String) : Option String :=
  match o with
  | some x => some x
  | none => acc

/-- The last `some` in a list of optional values, if any. -/
def lastSome (l : List (Option String)) : Option String :=
  l.foldl stepLast none

/-- The raw records that land in the group named `n`. -/
def groupMembers (as : List RawFinding) (n : String) : List RawFinding :=
  as.filter (fun a => resolveName a == n)

/-- The accumulator contents of the group named `n` after the whole loop. -/
def groupOf (as : List RawFinding) (n : String) : AlertGroup :=
  (groupMembers as n).foldl updateGroup emptyGroup

/-- The closed form of one output record of `simplify_alerts`: each field
computed directly from the records of its group. -/
def canonFinding (as : List RawFinding) (n : String) : SimplifiedAlert :=
  { name := n
    risk := ((groupMembers as n).map resolveRisk).getLast?
    urls := dedup ((groupMembers as n).filterMap resolveUrl)
    params := dedup ((groupMembers as n).filterMap resolveParam)
    description := (lastSome ((groupMembers as n).map resolveDescOpt)).getD ""
    solution := (lastSome ((groupMembers as n).map resolveSolOpt)).getD ""
    reference := (lastSome ((groupMembers as n).map resolveRefOpt)).getD "" }

/-- The two-record input refuting C3 as stated: a second record with no
risk keys resets the stored risk to "Informational". -/
def exC3 : List RawFinding :=
  [{ alert := some "X", risk := some "High" }, { alert := some "X" }]

/-- The simplified record produced by `exC3` (for the C3 witness). -/
def exC3simplified : SimplifiedAlert :=
  { name := "X", risk := some "Informational", urls := [], params := []
    description := "", solution := "", reference := "" }

/-- The two-record input refuting C2 as stated: a URL-only record
overwrites the prior description with the url. -/
def exC2 : List RawFinding :=
  [{ alert := some "X", description := some "D" },
   { alert := some "X", url := some "u" }]

/-- The URL-only record used by the C2 witness. -/
def c2rec : RawFinding := { alert := some "X", url := some "u" }

/-- The riskless record used by the C10 witness. -/
def c10rec : RawFinding := { alert := some "X" }

/-- The end-to-end scenario input of the spec (claim C1). -/
def exC1 : List RawFinding :=
  [{ alert := some "XSS", risk := some "High", url := some "http://a/x" },
   { alert := some "XSS", risk := some "High", url := some "http://a/y" },
   { alert := some "SQLi", risk := some "Critical" }]

/-- The simplified "XSS" record of the C1 scenario (for the C5 witness). -/
def xssSimplified : SimplifiedAlert :=
  { name := "XSS", risk := some "High", urls := ["http://a/x", "http://a/y"]
    params := [], description := "http://a/y", solution := "", reference := "" }

/-- The normalized "XSS" finding of the C1 scenario. -/
def xssFinding : Finding :=
  { name := "XSS", risk := some "High", urls := ["http://a/x", "http://a/y"]
    params := [], description := "http://a/y", solution := "", reference := ""
    score := 9, extra_suggestion := none }

/-- The normalized "SQLi" finding of the C1 scenario. -/
def sqliFinding : Finding :=
  { name := "SQLi", risk := some "Critical", urls := [], params := []
    description := "", solution := "", reference := "", score := 10
    extra_suggestion := none }

/-- A deterministic test engine: empty spider result, active-scan job
"1", empty refreshed alerts, generation succeeds with "ok". -/
def engOk : Engine :=
  { spider := Except.ok []
    ascanStart := Except.ok "1"
    ascanPoll := Except.ok ()
    ascanRefresh := Except.ok []
    generate := fun _ => Except.ok "ok" }

/-- A test engine whose every external call fails with "boom". -/
def engErr : Engine :=
  { spider := Except.error "boom"
    ascanStart := Except.error "boom"
    ascanPoll := Except.error "boom"
    ascanRefresh := Except.error "boom"
    generate := fun _ => Except.error "boom" }

/-- A generation stub that always fails with "boom". -/
def genFail : String → Except String String := fun _ => Except.error "boom"

/-! ### Shared lemma layer: last-write-wins folds, first-occurrence dedup -/

theorem foldl_stepLast (l : List (Option String)) (acc : Option String) :
    l.foldl stepLast acc =
      match lastSome l with
      | some d => some d
      | none => acc := by
  induction l generalizing acc with
  | nil => rfl
  | cons o l ih =>
    show l.foldl stepLast (stepLast acc o) = _
    rw [ih (stepLast acc o)]
    show _ = match l.foldl stepLast (stepLast none o) with
             | some d => some d
             | none => acc
    rw [ih (stepLast none o)]
    cases hl : lastSome l <;> cases o <;> rfl

theorem lastSome_cons (o : Option String) (l : List (Option String)) :
    lastSome (o :: l) =
      match lastSome l with
      | some d => some d
      | none => o := by
  show l.foldl stepLast (stepLast none o) = _
  rw [foldl_stepLast]
  cases lastSome l <;> cases o <;> rfl

theorem stepLast_idem (a o : Option String) :
    stepLast (stepLast a o) o = stepLast a o := by
  cases o <;> rfl

theorem lastSome_dup (xs ys : List (Option String)) (o : Option String) :
    lastSome (xs ++ o :: o :: ys) = lastSome (xs ++ o :: ys) := by
  unfold lastSome
  rw [List.foldl_append, List.foldl_append]
  show ys.foldl stepLast (stepLast (stepLast _ o) o) = ys.foldl stepLast (stepLast _ o)
  rw [stepLast_idem]

theorem lastSome_concat (l : List (Option String)) (o : Option String) :
    lastSome (l ++ [o]) = stepLast (lastSome l) o := by
  unfold lastSome
  rw [List.foldl_append]
  rfl

theorem dedupGo_sublist {α : Type} [DecidableEq α] (seen : List α) (l : List α) :
    List.Sublist (dedupGo seen l) l := by
  induction l generalizing seen with
  | nil => simp [dedupGo]
  | cons x xs ih =>
    unfold dedupGo
    by_cases hx : x ∈ seen
    · simp only [if_pos hx]
      exact List.Sublist.cons x (ih seen)
    · simp only [if_neg hx]
      exact List.Sublist.cons₂ x (ih (x :: seen))

theorem mem_dedupGo {α : Type} [DecidableEq α] (seen l : List α) (x : α) :
    x ∈ dedupGo seen l ↔ x ∈ l ∧ x ∉ seen := by
  induction l generalizing seen with
  | nil => simp [dedupGo]
  | cons y ys ih =>
    unfold dedupGo
    by_cases hy : y ∈ seen
    · rw [if_pos hy, ih]
      simp only [List.mem_cons]
      constructor
      · rintro ⟨h1, h2⟩
        exact ⟨Or.inr h1, h2⟩
      · rintro ⟨h1 | h1, h2⟩
        · subst h1; exact absurd hy h2
        · exact ⟨h1, h2⟩
    · rw [if_neg hy]
      simp only [List.mem_cons, ih]
      constructor
      · rintro (rfl | ⟨h1, h2⟩)
        · exact ⟨Or.inl rfl, hy⟩
        · exact ⟨Or.inr h1, fun hs => h2 (Or.inr hs)⟩
      · rintro ⟨rfl | h1, h2⟩
        · exact Or.inl rfl
        · by_cases hxy : x = y
          · exact Or.inl hxy
          · refine Or.inr ⟨h1, fun hmem => ?_⟩
            rcases hmem with h | h
            · exact hxy h
            · exact h2 h

theorem nodup_dedupGo {α : Type} [DecidableEq α] (seen l : List α) :
    (dedupGo seen l).Nodup := by
  induction l generalizing seen with
  | nil => simp [dedupGo]
  | cons x xs ih =>
    unfold dedupGo
    by_cases hx : x ∈ seen
    · simp only [if_pos hx]; exact ih seen
    · simp only [if_neg hx]
      refine List.Nodup.cons ?_ (ih (x :: seen))
      intro hmem
      exact ((mem_dedupGo (x :: seen) xs x).mp hmem).2 (List.mem_cons_self x seen)

theorem dedupGo_concat {α : Type} [DecidableEq α] (seen l : List α) (m : α) :
    dedupGo seen (l ++ [m]) =
      dedupGo seen l ++ (if m ∈ seen ∨ m ∈ l then [] else [m]) := by
  induction l generalizing seen with
  | nil =>
    by_cases hm : m ∈ seen <;> simp [hm, dedupGo]
  | cons y ys ih =>
    show dedupGo seen (y :: (ys ++ [m])) = dedupGo seen (y :: ys) ++ _
    unfold dedupGo
    by_cases hy : y ∈ seen
    · simp only [if_pos hy, ih seen]
      congr 1
      by_cases hm1 : m ∈ seen
      · simp [hm1]
      · by_cases hm2 : m ∈ ys
        · simp [hm1, hm2, List.mem_cons]
        · by_cases hmy : m = y
          · subst hmy; simp [hm1, hy] at *
          · simp [hm1, hm2, List.mem_cons, hmy]
    · simp only [if_neg hy, ih (y :: seen), List.cons_append]
      congr 1
      by_cases hm1 : m ∈ seen
      · simp [hm1, List.mem_cons]
      · by_cases hm2 : m ∈ ys
        · simp [hm1, hm2, List.mem_cons]
        · by_cases hmy : m = y
          · subst hmy; simp [hm1, hm2, List.mem_cons]
          · simp [hm1, hm2, List.mem_cons, hmy]

theorem dedupGo_dup {α : Type} [DecidableEq α] (seen A B : List α) (x : α) :
    dedupGo seen (A ++ x :: x :: B) = dedupGo seen (A ++ x :: B) := by
  induction A generalizing seen with
  | nil =>
    simp only [List.nil_append]
    show dedupGo seen (x :: x :: B) = dedupGo seen (x :: B)
    unfold dedupGo
    by_cases hx : x ∈ seen
    · simp [hx, dedupGo]
    · simp [hx, dedupGo, List.mem_cons]
  | cons a A ih =>
    show dedupGo seen (a :: (A ++ x :: x :: B)) = dedupGo seen (a :: (A ++ x :: B))
    unfold dedupGo
    by_cases ha : a ∈ seen
    · simp only [if_pos ha, ih seen]
    · simp only [if_neg ha, ih (a :: seen)]

theorem dedup_nodup {α : Type} [DecidableEq α] (l : List α) : (dedup l).Nodup :=
  nodup_dedupGo [] l

theorem dedup_sublist {α : Type} [DecidableEq α] (l : List α) :
    List.Sublist (dedup l) l :=
  dedupGo_sublist [] l

theorem mem_dedup {α : Type} [DecidableEq α] (l : List α) (x : α) :
    x ∈ dedup l ↔ x ∈ l := by
  unfold dedup
  rw [mem_dedupGo]
  simp

theorem dedup_concat {α : Type} [DecidableEq α] (l : List α) (m : α) :
    dedup (l ++ [m]) = dedup l ++ (if m ∈ l then [] else [m]) := by
  unfold dedup
  rw [dedupGo_concat]
  simp

theorem dedup_dup {α : Type} [DecidableEq α] (A B : List α) (x : α) :
    dedup (A ++ x :: x :: B) = dedup (A ++ x :: B) :=
  dedupGo_dup [] A B x

theorem getLast?_cons_form {α : Type} (x : α) (l : List α) :
    (x :: l).getLast? =
      match l.getLast? with
      | some y => some y
      | none => some x := by
  cases l with
  | nil => rfl
  | cons y ys =>
    rw [List.getLast?_cons_cons]
    cases h : (y :: ys).getLast? with
    | none => exact absurd h (by simp)
    | some z => rfl

theorem getLast?_dup {α : Type} (xs ys : List α) (x : α) :
    (xs ++ x :: x :: ys).getLast? = (xs ++ x :: ys).getLast? := by
  induction xs with
  | nil =>
    simp only [List.nil_append]
    rw [List.getLast?_cons_cons]
  | cons a as ih =>
    rw [List.cons_append, List.cons_append, getLast?_cons_form, getLast?_cons_form, ih]

/-! ### Canonical form of `simplify_alerts` -/

theorem groupMembers_concat (as : List RawFinding) (a : RawFinding) (n : String) :
    groupMembers (as ++ [a]) n =
      groupMembers as n ++ (if resolveName a = n then [a] else []) := by
  unfold groupMembers
  rw [List.filter_append]
  congr 1
  by_cases h : resolveName a = n <;> simp [List.filter_cons, beq_iff_eq, h]

theorem groupOf_concat (as : List RawFinding) (a : RawFinding) (n : String) :
    groupOf (as ++ [a]) n =
      if resolveName a = n then updateGroup (groupOf as n) a else groupOf as n := by
  unfold groupOf
  rw [groupMembers_concat]
  by_cases h : resolveName a = n <;> simp [h, List.foldl_append]

theorem groupMembers_of_not_mem (as : List RawFinding) (n : String)
    (h : n ∉ as.map resolveName) : groupMembers as n = [] := by
  unfold groupMembers
  rw [List.filter_eq_nil_iff]
  intro a ha
  simp only [beq_iff_eq]
  intro hn
  exact h (hn ▸ List.mem_map_of_mem resolveName ha)

theorem foldl_updateGroup_urls (cs : List RawFinding) (g : AlertGroup) :
    (cs.foldl updateGroup g).urls = g.urls ++ cs.filterMap resolveUrl := by
  induction cs generalizing g with
  | nil => simp
  | cons a cs ih =>
    show (cs.foldl updateGroup (updateGroup g a)).urls = _
    rw [ih, List.filterMap_cons]
    cases h : resolveUrl a <;> simp [updateGroup, h]

theorem foldl_updateGroup_params (cs : List RawFinding) (g : AlertGroup) :
    (cs.foldl updateGroup g).params = g.params ++ cs.filterMap resolveParam := by
  induction cs generalizing g with
  | nil => simp
  | cons a cs ih =>
    show (cs.foldl updateGroup (updateGroup g a)).params = _
    rw [ih, List.filterMap_cons]
    cases h : resolveParam a <;> simp [updateGroup, h]

theorem foldl_updateGroup_risk (cs : List RawFinding) (g : AlertGroup) :
    (cs.foldl updateGroup g).risk =
      match (cs.map resolveRisk).getLast? with
      | some r => some r
      | none => g.risk := by
  induction cs generalizing g with
  | nil => rfl
  | cons a cs ih =>
    show (cs.foldl updateGroup (updateGroup g a)).risk = _
    rw [ih, List.map_cons, getLast?_cons_form]
    cases h : (cs.map resolveRisk).getLast? <;> simp [updateGroup]

theorem foldl_updateGroup_field (proj : AlertGroup → String) (upd : RawFinding → Option String)
    (hstep : ∀ g a, proj (updateGroup g a) = (upd a).getD (proj g))
    (cs : List RawFinding) (g : AlertGroup) :
    proj (cs.foldl updateGroup g) = (lastSome (cs.map upd)).getD (proj g) := by
  induction cs generalizing g with
  | nil => rfl
  | cons a cs ih =>
    show proj (cs.foldl updateGroup (updateGroup g a)) = _
    rw [ih, hstep, List.map_cons, lastSome_cons]
    cases h1 : lastSome (cs.map upd) <;> cases h2 : upd a <;> simp

theorem emitGroup_groupOf (as : List RawFinding) (n : String) :
    emitGroup (n, groupOf as n) = canonFinding as n := by
  unfold emitGroup canonFinding
  simp only [SimplifiedAlert.mk.injEq]
  refine ⟨trivial, ?_, ?_, ?_, ?_, ?_, ?_⟩
  · show (groupOf as n).risk = _
    unfold groupOf
    rw [foldl_updateGroup_risk]
    cases ((groupMembers as n).map resolveRisk).getLast? <;> rfl
  · show dedup (groupOf as n).urls = _
    unfold groupOf
    rw [foldl_updateGroup_urls]
    rfl
  · show dedup (groupOf as n).params = _
    unfold groupOf
    rw [foldl_updateGroup_params]
    rfl
  · show (groupOf as n).description = _
    unfold groupOf
    rw [foldl_updateGroup_field (fun g => g.description) resolveDescOpt
      (fun g a => rfl)]
    rfl
  · show (groupOf as n).solution = _
    unfold groupOf
    rw [foldl_updateGroup_field (fun g => g.solution) resolveSolOpt
      (fun g a => rfl)]
    rfl
  · show (groupOf as n).reference = _
    unfold groupOf
    rw [foldl_updateGroup_field (fun g => g.reference) resolveRefOpt
      (fun g a => rfl)]
    rfl

theorem insertAlert_key_test (st : List (String × AlertGroup)) (m : String) :
    (st.any (fun p => p.1 == m) = true) ↔ m ∈ st.map Prod.fst := by
  rw [List.any_eq_true]
  constructor
  · rintro ⟨p, hp, he⟩
    exact (beq_iff_eq.mp he) ▸ List.mem_map_of_mem Prod.fst hp
  · intro hm
    rcases List.mem_map.mp hm with ⟨p, hp, he⟩
    exact ⟨p, hp, beq_iff_eq.mpr he⟩

theorem foldl_insertAlert_char (as : List RawFinding) :
    as.foldl insertAlert [] =
      (dedup (as.map resolveName)).map (fun n => (n, groupOf as n)) := by
  induction as using List.reverseRecOn with
  | nil => rfl
  | append_singleton l a ih =>
    rw [List.foldl_append, List.foldl_cons, List.foldl_nil, ih]
    unfold insertAlert
    by_cases hm : resolveName a ∈ l.map resolveName
    · have htest : (((dedup (l.map resolveName)).map
          (fun n => (n, groupOf l n))).any (fun p => p.1 == resolveName a)) = true := by
        rw [insertAlert_key_test]
        rw [List.map_map]
        simpa using (mem_dedup (l.map resolveName) (resolveName a)).mpr hm
      rw [if_pos htest]
      have hns : (l ++ [a]).map resolveName = l.map resolveName ++ [resolveName a] := by
        simp
      rw [hns, dedup_concat, if_pos hm, List.append_nil, List.map_map]
      apply List.map_congr_left
      intro n _
      simp only [Function.comp]
      rw [groupOf_concat]
      by_cases hn : resolveName a = n
      · rw [if_pos hn, if_pos (beq_iff_eq.mpr hn.symm)]
      · rw [if_neg hn, if_neg (fun h => hn (beq_iff_eq.mp h).symm)]
    · have hneg : ¬((((dedup (l.map resolveName)).map
          (fun n => (n, groupOf l n))).any (fun p => p.1 == resolveName a)) = true) := by
        intro hc
        rw [insertAlert_key_test, List.map_map] at hc
        exact hm ((mem_dedup (l.map resolveName) (resolveName a)).mp (by simpa using hc))
      rw [if_neg hneg]
      have hns : (l ++ [a]).map resolveName = l.map resolveName ++ [resolveName a] := by
        simp
      rw [hns, dedup_concat, if_neg hm, List.map_append]
      congr 1
      · apply List.map_congr_left
        intro n hn
        rw [groupOf_concat, if_neg]
        intro he
        exact hm (he ▸ (mem_dedup (l.map resolveName) n).mp hn)
      · simp only [List.map_cons, List.map_nil]
        rw [groupOf_concat, if_pos rfl]
        unfold groupOf
        rw [groupMembers_of_not_mem l (resolveName a) hm]
        rfl

/-- `simplify_alerts` in closed form: one canonical record per distinct
resolved name, in first-seen order. -/
theorem simplify_canon (as : List RawFinding) :
    simplify_alerts as = (dedup (as.map resolveName)).map (canonFinding as) := by
  unfold simplify_alerts
  rw [foldl_insertAlert_char, List.map_map]
  apply List.map_congr_left
  intro n _
  exact emitGroup_groupOf as n

theorem canonFinding_name (as : List RawFinding) (n : String) :
    (canonFinding as n).name = n := rfl

theorem simplify_names (as : List RawFinding) :
    (simplify_alerts as).map (fun f => f.name) = dedup (as.map resolveName) := by
  rw [simplify_canon, List.map_map]
  have h : ((fun f : SimplifiedAlert => f.name) ∘ canonFinding as) = id :=
    funext (fun n => rfl)
  rw [h, List.map_id]

theorem mem_simplify_shape (as : List RawFinding) (f : SimplifiedAlert)
    (hf : f ∈ simplify_alerts as) :
    ∃ n, n ∈ dedup (as.map resolveName) ∧ f = canonFinding as n := by
  rw [simplify_canon] at hf
  rcases List.mem_map.mp hf with ⟨n, hn, he⟩
  exact ⟨n, hn, he.symm⟩

theorem canonFinding_mem (as : List RawFinding) (n : String)
    (hn : n ∈ as.map resolveName) :
    canonFinding as n ∈ simplify_alerts as := by
  rw [simplify_canon]
  exact List.mem_map_of_mem (canonFinding as) ((mem_dedup _ _).mpr hn)

/-- C5: for every sequence of raw findings, `simplify_alerts` emits exactly
one group per distinct resolved name, in first-seen order of the names
(its name list is the first-occurrence dedup of the resolved-name list),
and each group's `urls` / `params` are the first-occurrence dedup of the
urls / params collected, in record order, from that group's raw records —
hence duplicate-free and first-seen ordered (a sublist of the collected
sequence). -/
theorem c5_normalizer_invariants (as : List RawFinding) :
    ((simplify_alerts as).map (fun f => f.name) = dedup (as.map resolveName))
    ∧ ((simplify_alerts as).map (fun f => f.name)).Nodup
    ∧ (∀ n : String, n ∈ (simplify_alerts as).map (fun f => f.name) ↔ n ∈ as.map resolveName)
    ∧ (∀ f : SimplifiedAlert, f ∈ simplify_alerts as →
        f.urls = dedup ((groupMembers as f.name).filterMap resolveUrl)
        ∧ f.urls.Nodup
        ∧ List.Sublist f.urls ((groupMembers as f.name).filterMap resolveUrl)
        ∧ f.params = dedup ((groupMembers as f.name).filterMap resolveParam)
        ∧ f.params.Nodup
        ∧ List.Sublist f.params ((groupMembers as f.name).filterMap resolveParam)) := by
  refine ⟨simplify_names as, ?_, ?_, ?_⟩
  · rw [simplify_names as]
    exact dedup_nodup _
  · intro n
    rw [simplify_names as, mem_dedup]
  · intro f hf
    rcases mem_simplify_shape as f hf with ⟨n, _, rfl⟩
    exact ⟨rfl, dedup_nodup _, dedup_sublist _, rfl, dedup_nodup _, dedup_sublist _⟩

/-- C3 (amended): the stored risk of a group is the *resolved* risk of the
last raw record of the group, where per-record resolution falls back to
`"Informational"` when no risk key is truthy — so a later record with no
risk value *does* overwrite the stored risk. -/
theorem c3_amended_risk_last (as : List RawFinding) (f : SimplifiedAlert)
    (hf : f ∈ simplify_alerts as) :
    f.risk = ((groupMembers as f.name).map resolveRisk).getLast? := by
  rcases mem_simplify_shape as f hf with ⟨n, _, rfl⟩
  rfl

/-- C3 counterexample: in `exC3` the last non-empty risk label seen for
name "X" is "High", yet the stored risk is "Informational". -/
theorem c3_counterexample :
    (simplify_alerts exC3).map (fun f => f.risk) = [some "Informational"]
    ∧ (exC3.filterMap (fun a => tv a.risk)).getLast? = some "High"
    ∧ ("Informational" : String) ≠ "High" := by
  refine ⟨by decide, by decide, by decide⟩

theorem c3_witness :
    exC3simplified ∈ simplify_alerts exC3
    ∧ exC3simplified.risk =
        ((groupMembers exC3 exC3simplified.name).map resolveRisk).getLast? :=
  ⟨by decide, c3_amended_risk_last exC3 exC3simplified (by decide)⟩

theorem canonFinding_dup (as1 as2 : List RawFinding) (r : RawFinding) (n : String) :
    canonFinding (as1 ++ r :: r :: as2) n = canonFinding (as1 ++ r :: as2) n := by
  unfold canonFinding groupMembers
  simp only [List.filter_append, List.filter_cons]
  by_cases h : resolveName r = n
  · rw [if_pos (by simpa using h), if_pos (by simpa using h)]
    simp only [SimplifiedAlert.mk.injEq]
    refine ⟨trivial, ?_, ?_, ?_, ?_, ?_, ?_⟩
    · simp only [List.map_append, List.map_cons]
      exact getLast?_dup _ _ _
    · simp only [List.filterMap_append, List.filterMap_cons]
      cases hu : resolveUrl r
      · rfl
      · exact dedup_dup _ _ _
    · simp only [List.filterMap_append, List.filterMap_cons]
      cases hp : resolveParam r
      · rfl
      · exact dedup_dup _ _ _
    · simp only [List.map_append, List.map_cons]
      rw [lastSome_dup]
    · simp only [List.map_append, List.map_cons]
      rw [lastSome_dup]
    · simp only [List.map_append, List.map_cons]
      rw [lastSome_dup]
  · rw [if_neg (by simpa using h), if_neg (by simpa using h)]

/-- C7: the normalizer is idempotent on exact duplicates — inserting a
second identical copy of any record directly after it leaves the grouped
output unchanged. -/
theorem c7_duplicate_idempotent (as1 as2 : List RawFinding) (r : RawFinding) :
    simplify_alerts (as1 ++ r :: r :: as2) = simplify_alerts (as1 ++ r :: as2) := by
  rw [simplify_canon, simplify_canon]
  have hnames : dedup ((as1 ++ r :: r :: as2).map resolveName)
      = dedup ((as1 ++ r :: as2).map resolveName) := by
    simp only [List.map_append, List.map_cons]
    exact dedup_dup _ _ _
  rw [hnames]
  exact List.map_congr_left (fun n _ => canonFinding_dup as1 as2 r n)

theorem groupMembers_concat_self (as : List RawFinding) (r : RawFinding) :
    groupMembers (as ++ [r]) (resolveName r) = groupMembers as (resolveName r) ++ [r] := by
  rw [groupMembers_concat, if_pos rfl]

/-- C2 (amended): a raw record carrying only a url (no truthy
`description` / `desc` / `evidence`) still creates or extends its name
group, but — because the url is the *fourth* description fallback — the
group's stored description becomes that url, overwriting whatever a prior
record had provided. -/
theorem c2_amended_url_description (as : List RawFinding) (r : RawFinding) (u : String)
    (h1 : tv r.description = none) (h2 : tv r.desc = none) (h3 : tv r.evidence = none)
    (h4 : tv r.url = some u) :
    (∃ f : SimplifiedAlert, f ∈ simplify_alerts (as ++ [r]) ∧ f.name = resolveName r)
    ∧ (∀ f : SimplifiedAlert, f ∈ simplify_alerts (as ++ [r]) →
        f.name = resolveName r → f.description = u) := by
  have hdesc : resolveDescOpt r = some u := by
    unfold resolveDescOpt
    rw [h1, h2, h3, h4]
    rfl
  constructor
  · refine ⟨canonFinding (as ++ [r]) (resolveName r), ?_, rfl⟩
    apply canonFinding_mem
    simp
  · intro f hf hname
    rcases mem_simplify_shape _ f hf with ⟨n, _, rfl⟩
    have hn : n = resolveName r := hname
    subst hn
    show (lastSome ((groupMembers (as ++ [r]) (resolveName r)).map resolveDescOpt)).getD "" = u
    rw [groupMembers_concat_self, List.map_append, List.map_cons, List.map_nil,
      lastSome_concat, hdesc]
    rfl

/-- C2 counterexample: after the URL-only record, the stored description
is the url "u", not the prior record's "D". -/
theorem c2_counterexample :
    (simplify_alerts exC2).map (fun f => (f.name, f.description)) = [("X", "u")]
    ∧ ("u" : String) ≠ "D" := by
  refine ⟨by decide, by decide⟩

theorem c2_witness :
    (tv c2rec.description = none ∧ tv c2rec.url = some "u")
    ∧ (∀ f : SimplifiedAlert,
        f ∈ simplify_alerts (exC2.take 1 ++ [c2rec]) →
        f.name = resolveName c2rec → f.description = "u") :=
  ⟨⟨rfl, by decide⟩,
    (c2_amended_url_description (exC2.take 1) c2rec "u" rfl rfl rfl (by decide)).2⟩

/-- C10: a raw record with no truthy risk key resolves to risk
"Informational"; that default is written unconditionally into the group
(overwriting any earlier risk), and it scores 1, bucketed Low. -/
theorem c10_default_informational (as : List RawFinding) (r : RawFinding)
    (h1 : tv r.risk = none) (h2 : tv r.riskdesc = none) (h3 : tv r.severity = none) :
    resolveRisk r = "Informational"
    ∧ (∃ f : SimplifiedAlert, f ∈ simplify_alerts (as ++ [r]) ∧ f.name = resolveName r)
    ∧ (∀ f : SimplifiedAlert, f ∈ simplify_alerts (as ++ [r]) →
        f.name = resolveName r → f.risk = some "Informational")
    ∧ risk_to_score "Informational" = 1
    ∧ (∀ f : Finding, f ∈ processAlerts (as ++ [r]) →
        f.name = resolveName r → f.score = 1 ∧ isLow f = true) := by
  have hrisk : resolveRisk r = "Informational" := by
    unfold resolveRisk
    rw [h1, h2, h3]
    rfl
  have hmem : ∀ f : SimplifiedAlert, f ∈ simplify_alerts (as ++ [r]) →
      f.name = resolveName r → f.risk = some "Informational" := by
    intro f hf hname
    rcases mem_simplify_shape _ f hf with ⟨n, _, rfl⟩
    have hn : n = resolveName r := hname
    subst hn
    show ((groupMembers (as ++ [r]) (resolveName r)).map resolveRisk).getLast?
      = some "Informational"
    rw [groupMembers_concat_self, List.map_append, List.map_cons, List.map_nil,
      List.getLast?_concat, hrisk]
  refine ⟨hrisk, ?_, hmem, rfl, ?_⟩
  · refine ⟨canonFinding (as ++ [r]) (resolveName r), ?_, rfl⟩
    apply canonFinding_mem
    simp
  · intro f hf hname
    rcases List.mem_map.mp hf with ⟨a, ha, rfl⟩
    have hname' : a.name = resolveName r := by
      have : (enrich_suggestions (attachScore a)).name = a.name := by
        unfold enrich_suggestions
        cases List.find? (fun kv => containsLower kv.1 (attachScore a).name)
            CUSTOM_SUGGESTIONS <;> rfl
      rw [this] at hname
      exact hname
    have hriska : a.risk = some "Informational" := hmem a ha hname'
    have hscore : (enrich_suggestions (attachScore a)).score = 1 := by
      have hsc : (attachScore a).score = 1 := by
        unfold attachScore
        simp only
        rw [hriska]
        rfl
      unfold enrich_suggestions
      cases List.find? (fun kv => containsLower kv.1 (attachScore a).name)
          CUSTOM_SUGGESTIONS <;> simpa using hsc
    refine ⟨hscore, ?_⟩
    unfold isLow
    rw [hscore]
    rfl

theorem c10_witness :
    tv c10rec.risk = none
    ∧ resolveRisk c10rec = "Informational"
    ∧ (∀ f : Finding, f ∈ processAlerts ([] ++ [c10rec]) →
        f.name = resolveName c10rec → f.score = 1 ∧ isLow f = true) :=
  ⟨rfl,
    (c10_default_informational [] c10rec rfl rfl rfl).1,
    (c10_default_informational [] c10rec rfl rfl rfl).2.2.2.2⟩

theorem bucket_indicator (f : Finding) :
    (if isCritical f then 1 else 0) + (if isHigh f then 1 else 0)
      + (if isMedium f then 1 else 0) + (if isLow f then 1 else 0) = 1 := by
  simp only [isCritical, isHigh, isMedium, isLow, Bool.and_eq_true, decide_eq_true_eq]
  split_ifs <;> omega

theorem bucket_filter_sum (final : List Finding) :
    (final.filter isCritical).length + (final.filter isHigh).length
      + (final.filter isMedium).length + (final.filter isLow).length = final.length := by
  induction final with
  | nil => rfl
  | cons f l ih =>
    have hf := bucket_indicator f
    simp only [List.filter_cons, List.length_cons]
    split_ifs at hf ⊢ <;> (try simp only [List.length_cons]) <;> omega

/-- C6: `risk_to_score` totally maps the five named labels to their fixed
scores and every other label to 0, and the four bucket conditions used by
the `scan` route partition the score domain — every finding falls in
exactly one bucket, so the bucket sizes always sum to the whole list. -/
theorem c6_severity_partition :
    (risk_to_score "Critical" = 10 ∧ risk_to_score "High" = 9 ∧ risk_to_score "Medium" = 6
      ∧ risk_to_score "Low" = 3 ∧ risk_to_score "Informational" = 1)
    ∧ (∀ r : String, r ≠ "Critical" → r ≠ "High" → r ≠ "Medium" → r ≠ "Low" →
        r ≠ "Informational" → risk_to_score r = 0)
    ∧ (∀ f : Finding,
        (if isCritical f then 1 else 0) + (if isHigh f then 1 else 0)
          + (if isMedium f then 1 else 0) + (if isLow f then 1 else 0) = 1)
    ∧ (∀ final : List Finding,
        ((groupedBuckets final).map (fun kv => kv.2.length)).sum = final.length) := by
  refine ⟨by decide, ?_, bucket_indicator, ?_⟩
  · intro r h1 h2 h3 h4 h5
    unfold risk_to_score
    rw [if_neg h2, if_neg h3, if_neg h4, if_neg h5, if_neg h1]
  · intro final
    have h := bucket_filter_sum final
    simp only [groupedBuckets, List.map_cons, List.map_nil, List.sum_cons, List.sum_nil]
    omega

theorem c6_witness :
    (("Other" : String) ≠ "Critical" ∧ ("Other" : String) ≠ "High"
      ∧ ("Other" : String) ≠ "Medium" ∧ ("Other" : String) ≠ "Low"
      ∧ ("Other" : String) ≠ "Informational")
    ∧ risk_to_score "Other" = 0 :=
  ⟨by decide,
    c6_severity_partition.2.1 "Other" (by decide) (by decide) (by decide) (by decide)
      (by decide)⟩

/-- C1 counterexample: on the spec's scenario the pipeline's summary is
`{Critical: 2, High: 0, Medium: 0, Low: 0}` — the "XSS" finding
(score 9) satisfies the Critical bucket condition `score >= 9`, not the
High one — so the claimed summary `{Critical: 1, High: 1, Medium: 0,
Low: 0}` (XSS bucketed High) is wrong. -/
theorem c1_counterexample :
    summaryOf (processAlerts exC1) = [("Critical", 2), ("High", 0), ("Medium", 0), ("Low", 0)]
    ∧ summaryOf (processAlerts exC1) ≠ [("Critical", 1), ("High", 1), ("Medium", 0), ("Low", 0)] := by
  refine ⟨by decide, by decide⟩

/-- C1 (amended): the pipeline yields exactly 2 findings; "XSS" has urls
`["http://a/x", "http://a/y"]` and score 9, "SQLi" has score 10; but both
scores satisfy the Critical bucket condition (`score >= 9`), so both land
in the Critical bucket and the summary is
`{Critical: 2, High: 0, Medium: 0, Low: 0}`. -/
theorem c1_amended_pipeline :
    processAlerts exC1 = [xssFinding, sqliFinding]
    ∧ xssFinding.urls = ["http://a/x", "http://a/y"]
    ∧ xssFinding.score = 9
    ∧ sqliFinding.score = 10
    ∧ isCritical xssFinding = true
    ∧ isHigh xssFinding = false
    ∧ isCritical sqliFinding = true
    ∧ (groupedBuckets (processAlerts exC1)).map (fun kv => (kv.1, kv.2.length))
        = [("Critical", 2), ("High", 0), ("Medium", 0), ("Low", 0)]
    ∧ summaryOf (processAlerts exC1)
        = [("Critical", 2), ("High", 0), ("Medium", 0), ("Low", 0)] := by
  refine ⟨by decide, by decide, by decide, by decide, by decide, by decide, by decide,
    by decide, by decide⟩

theorem scan_guard_false (validator : String → Bool) (url : String)
    (h0 : pyStrip url ≠ "") (hv : validator (pyStrip url) = true) :
    ¬((decide (pyStrip url = "") || !validator (pyStrip url)) = true) := by
  simp [h0, hv]

theorem scan_valid_ok (validator : String → Bool) (eng : Engine) (store : Option Report)
    (url : String) (level : Int) (report : Report)
    (h0 : pyStrip url ≠ "") (hv : validator (pyStrip url) = true)
    (hrep : scanReport eng (pyStrip url) level = Except.ok report) :
    scan validator eng store url level = (HttpResult.ok report, some report) := by
  unfold scan
  rw [if_neg (scan_guard_false validator url h0 hv), hrep]

theorem scan_valid_err (validator : String → Bool) (eng : Engine) (store : Option Report)
    (url : String) (level : Int) (e : String)
    (h0 : pyStrip url ≠ "") (hv : validator (pyStrip url) = true)
    (hrep : scanReport eng (pyStrip url) level = Except.error e) :
    scan validator eng store url level = (HttpResult.serverErr e, store) := by
  unfold scan
  rw [if_neg (scan_guard_false validator url h0 hv), hrep]

theorem collectRaw_low (eng : Engine) (target : String) (level : Int)
    (hl : level ≤ 1) (s : List RawFinding) (hs : eng.spider = Except.ok s) :
    collectRaw eng target level = Except.ok (none, s) := by
  have h2 : ¬(2 ≤ level) := by omega
  have h3 : ¬(level = 3) := by omega
  simp [collectRaw, collectAfterSpider, hs, h2, h3]

theorem collectRaw_active (eng : Engine) (target : String) (level : Int)
    (h2 : 2 ≤ level) (s : List RawFinding) (jid : String) (base : List RawFinding)
    (hs : eng.spider = Except.ok s) (hj : eng.ascanStart = Except.ok jid)
    (hp : eng.ascanPoll = Except.ok ()) (hb : eng.ascanRefresh = Except.ok base) :
    collectRaw eng target level =
      Except.ok (some jid, if level = 3 then base ++ [syntheticWAF target] else base) := by
  simp [collectRaw, collectAfterSpider, ascanPhase, hs, hj, hp, hb, h2, Except.map]

theorem scanReport_of_collect (eng : Engine) (target : String) (level : Int)
    (aid : Option String) (alerts : List RawFinding)
    (hc : collectRaw eng target level = Except.ok (aid, alerts)) :
    scanReport eng target level = Except.ok
      { target := target
        level := level
        summary := summaryOf (processAlerts alerts)
        vulnerabilities := processAlerts alerts
        ai_summary := ai_analyze eng.generate (processAlerts alerts) target level
        ascan_id := aid } := by
  unfold scanReport
  rw [hc]

theorem scanReport_err_of_collect (eng : Engine) (target : String) (level : Int)
    (e : String) (hc : collectRaw eng target level = Except.error e) :
    scanReport eng target level = Except.error e := by
  unfold scanReport
  rw [hc]

/-- C4: with a valid URL, a level `<= 1` scan (level 1, 0 or negative
alike) returns a report with no active-scan job id and raw findings
exactly as the spider produced them (no synthetic record added); a level
2 scan's report carries the active-scan job id; a level 3 scan appends
exactly one synthetic "Missing WAF/Firewall headers" record to the raw
list before normalization, whatever alerts the active scan returned; and
any level `>= 2` other than 3 appends nothing. -/
theorem c4_scan_levels (validator : String → Bool) (eng : Engine) (store : Option Report)
    (url : String) (h0 : pyStrip url ≠ "") (hv : validator (pyStrip url) = true) :
    (∀ (level : Int) (s : List RawFinding), level ≤ 1 → eng.spider = Except.ok s →
      ∃ report : Report, scan validator eng store url level = (HttpResult.ok report, some report)
        ∧ report.ascan_id = none ∧ report.vulnerabilities = processAlerts s)
    ∧ (∀ (s : List RawFinding) (jid : String) (base : List RawFinding),
        eng.spider = Except.ok s → eng.ascanStart = Except.ok jid →
        eng.ascanPoll = Except.ok () → eng.ascanRefresh = Except.ok base →
        (∃ report : Report, scan validator eng store url 2 = (HttpResult.ok report, some report)
          ∧ report.ascan_id = some jid ∧ report.vulnerabilities = processAlerts base)
        ∧ (∃ report : Report, scan validator eng store url 3 = (HttpResult.ok report, some report)
          ∧ report.ascan_id = some jid
          ∧ report.vulnerabilities = processAlerts (base ++ [syntheticWAF (pyStrip url)]))
        ∧ (∀ level : Int, 2 ≤ level → level ≠ 3 →
            ∃ report : Report,
              scan validator eng store url level = (HttpResult.ok report, some report)
              ∧ report.ascan_id = some jid ∧ report.vulnerabilities = processAlerts base)) := by
  constructor
  · intro level s hl hs
    refine ⟨_, scan_valid_ok validator eng store url level _ h0 hv
      (scanReport_of_collect eng (pyStrip url) level none s (collectRaw_low eng (pyStrip url) level hl s hs)),
      rfl, rfl⟩
  · intro s jid base hs hj hp hb
    refine ⟨?_, ?_, ?_⟩
    · have hc := collectRaw_active eng (pyStrip url) 2 (by omega) s jid base hs hj hp hb
      rw [if_neg (by omega : ¬((2 : Int) = 3))] at hc
      exact ⟨_, scan_valid_ok validator eng store url 2 _ h0 hv
        (scanReport_of_collect eng (pyStrip url) 2 (some jid) base hc), rfl, rfl⟩
    · have hc := collectRaw_active eng (pyStrip url) 3 (by omega) s jid base hs hj hp hb
      rw [if_pos rfl] at hc
      exact ⟨_, scan_valid_ok validator eng store url 3 _ h0 hv
        (scanReport_of_collect eng (pyStrip url) 3 (some jid) _ hc), rfl, rfl⟩
    · intro level h2 h3
      have hc := collectRaw_active eng (pyStrip url) level h2 s jid base hs hj hp hb
      rw [if_neg h3] at hc
      exact ⟨_, scan_valid_ok validator eng store url level _ h0 hv
        (scanReport_of_collect eng (pyStrip url) level (some jid) base hc), rfl, rfl⟩

theorem c4_witness :
    (pyStrip "http://a" ≠ "" ∧ engOk.spider = Except.ok [])
    ∧ (∃ report : Report,
        scan (fun _ => true) engOk none "http://a" 1 = (HttpResult.ok report, some report)
        ∧ report.ascan_id = none ∧ report.vulnerabilities = processAlerts [])
    ∧ (∃ report : Report,
        scan (fun _ => true) engOk none "http://a" 3 = (HttpResult.ok report, some report)
        ∧ report.ascan_id = some "1"
        ∧ report.vulnerabilities = processAlerts ([] ++ [syntheticWAF (pyStrip "http://a")]))
    ∧ (∃ report : Report,
        scan (fun _ => true) engOk none "http://a" 4 = (HttpResult.ok report, some report)
        ∧ report.ascan_id = some "1" ∧ report.vulnerabilities = processAlerts []) :=
  ⟨⟨by decide, rfl⟩,
    (c4_scan_levels (fun _ => true) engOk none "http://a" (by decide) rfl).1 1 []
      (by omega) rfl,
    ((c4_scan_levels (fun _ => true) engOk none "http://a" (by decide) rfl).2 [] "1" []
      rfl rfl rfl rfl).2.1,
    ((c4_scan_levels (fun _ => true) engOk none "http://a" (by decide) rfl).2 [] "1" []
      rfl rfl rfl rfl).2.2 4 (by omega) (by omega)⟩

/-- C8: the `scan` route mutates the report store only on success — an
invalid or missing URL yields the 400 reply with the store unchanged, an
error in the scan body yields the 500 reply carrying the error's text
with the store unchanged, and every outcome either leaves the store as it
was or installs exactly the returned report. -/
theorem c8_store_mutation (validator : String → Bool) (eng : Engine) (store : Option Report)
    (url : String) (level : Int) :
    ((pyStrip url = "" ∨ validator (pyStrip url) = false) →
      scan validator eng store url level =
        (HttpResult.clientErr "Invalid or missing URL. Please include http:// or https://",
          store))
    ∧ (∀ e : String, pyStrip url ≠ "" → validator (pyStrip url) = true →
        scanReport eng (pyStrip url) level = Except.error e →
        scan validator eng store url level = (HttpResult.serverErr e, store))
    ∧ (∀ (res : HttpResult Report) (st' : Option Report),
        scan validator eng store url level = (res, st') →
        st' = store ∨ ∃ r : Report, res = HttpResult.ok r ∧ st' = some r) := by
  refine ⟨?_, ?_, ?_⟩
  · intro h
    have hg : (decide (pyStrip url = "") || !validator (pyStrip url)) = true := by
      rcases h with h | h <;> simp [h]
    unfold scan
    rw [if_pos hg]
  · intro e h0 hv hrep
    exact scan_valid_err validator eng store url level e h0 hv hrep
  · intro res st' h
    unfold scan at h
    by_cases hg : (decide (pyStrip url = "") || !validator (pyStrip url)) = true
    · rw [if_pos hg] at h
      injection h with h1 h2
      exact Or.inl h2.symm
    · rw [if_neg hg] at h
      cases hrep : scanReport eng (pyStrip url) level with
      | ok r =>
        rw [hrep] at h
        injection h with h1 h2
        exact Or.inr ⟨r, h1.symm, h2.symm⟩
      | error e =>
        rw [hrep] at h
        injection h with h1 h2
        exact Or.inl h2.symm

theorem c8_witness :
    (pyStrip "" = "" ∨ (fun _ : String => true) (pyStrip "") = false)
    ∧ scan (fun _ => true) engOk none "" 1 =
        (HttpResult.clientErr "Invalid or missing URL. Please include http:// or https://",
          none)
    ∧ (pyStrip "http://a" ≠ ""
        ∧ scanReport engErr (pyStrip "http://a") 1 = Except.error "boom")
    ∧ scan (fun _ => true) engErr none "http://a" 1 = (HttpResult.serverErr "boom", none) :=
  ⟨Or.inl rfl,
    (c8_store_mutation (fun _ => true) engOk none "" 1).1 (Or.inl rfl),
    ⟨by decide, rfl⟩,
    (c8_store_mutation (fun _ => true) engErr none "http://a" 1).2.1 "boom"
      (by decide) rfl rfl⟩

/-- The amended AI-narration containment facts (C9): the scan-summary
path (`ai_analyze`) never fails — a generation error becomes the
bracketed marker text, and a scan with a failing generator still
succeeds, embedding that text; the chat path, however, does *not*
contain failures: it returns a 500 error reply "AI Chat unavailable: e"
(no bracket, an error code), refuting the claim for that entry point. -/
theorem c9_amended_containment :
    (∀ (gen : String → Except String String) (final : List Finding) (target : String)
        (level : Int) (e : String),
        gen (ai_prompt final target level) = Except.error e →
        ai_analyze gen final target level = "[AI summary unavailable: " ++ e ++ "]")
    ∧ (∀ (validator : String → Bool) (eng : Engine) (store : Option Report) (url : String)
        (level : Int) (aid : Option String) (alerts : List RawFinding),
        pyStrip url ≠ "" → validator (pyStrip url) = true →
        collectRaw eng (pyStrip url) level = Except.ok (aid, alerts) →
        ∃ report : Report,
          scan validator eng store url level = (HttpResult.ok report, some report)
          ∧ report.ai_summary
              = ai_analyze eng.generate (processAlerts alerts) (pyStrip url) level)
    ∧ (∀ (gen : String → Except String String) (store : Option Report) (message : String)
        (b : Bool) (e : String),
        pyStrip message ≠ "" →
        gen (chat_prompt store (pyStrip message) b) = Except.error e →
        chat gen store message b = HttpResult.serverErr ("AI Chat unavailable: " ++ e)) := by
  refine ⟨?_, ?_, ?_⟩
  · intro gen final target level e hg
    unfold ai_analyze
    rw [hg]
  · intro validator eng store url level aid alerts h0 hv hc
    exact ⟨_, scan_valid_ok validator eng store url level _ h0 hv
      (scanReport_of_collect eng (pyStrip url) level aid alerts hc), rfl⟩
  · intro gen store message b e h0 hg
    unfold chat
    rw [if_neg h0, hg]

/-- C9 counterexample: on a generation failure the chat route returns a
500 error reply (constructor `serverErr`, text unbracketed), not a
successful text reply — refuting the claim that both AI entry points
contain failures in a 200 text body. -/
theorem c9_counterexample :
    chat genFail none "hi" false = HttpResult.serverErr "AI Chat unavailable: boom"
    ∧ (chat genFail none "hi" false).isOk = false := by
  refine ⟨by decide, by decide⟩

theorem c9_witness :
    (genFail (ai_prompt [] "t" 1) = Except.error "boom"
      ∧ ai_analyze genFail [] "t" 1 = "[AI summary unavailable: " ++ "boom" ++ "]")
    ∧ (pyStrip "hi" ≠ ""
      ∧ chat genFail none "hi" false
          = HttpResult.serverErr ("AI Chat unavailable: " ++ "boom")) :=
  ⟨⟨rfl, c9_amended_containment.1 genFail [] "t" 1 "boom" rfl⟩,
   ⟨by decide, c9_amended_containment.2.2 genFail none "hi" false "boom" (by decide) rfl⟩⟩

theorem c5_witness :
    xssSimplified ∈ simplify_alerts exC1
    ∧ (xssSimplified.urls
        = dedup ((groupMembers exC1 xssSimplified.name).filterMap resolveUrl)
      ∧ xssSimplified.urls.Nodup
      ∧ List.Sublist xssSimplified.urls
          ((groupMembers exC1 xssSimplified.name).filterMap resolveUrl)
      ∧ xssSimplified.params
          = dedup ((groupMembers exC1 xssSimplified.name).filterMap resolveParam)
      ∧ xssSimplified.params.Nodup
      ∧ List.Sublist xssSimplified.params
          ((groupMembers exC1 xssSimplified.name).filterMap resolveParam)) :=
  ⟨by decide, (c5_normalizer_invariants exC1).2.2.2 xssSimplified (by decide)⟩
